import Mathlib

/-!
Shallow embedding of the hypothesis-testing and combination engine of the
spey repository (spey + madstats packages), together with theorems checking
the natural-language specification against the code.

Conventions:
* Python floats are modelled as real numbers `ℝ` where square roots,
  exponentials and the normal CDF occur, and as rationals `ℚ` where the code
  is pure bounded arithmetic (bracketing loops, recorder caches, optimizer
  plumbing), so that those parts stay decidable.
* A Python `nan` result is modelled as `none : Option _`; a float that is
  certainly a number is `some`.
* The float `-inf` used as a distribution cutoff is modelled as
  `none : Option ℝ` in the `cutoff` field (the code never uses `+inf` there).
* `scipy.stats.multivariate_normal.cdf` on a scalar is an external library
  function; it enters the embedding as an explicit parameter `Φ : ℝ → ℝ`.
-/

namespace Spey

/-- Embedding of `spey.utils.ExpectationType` / `madstats.utils.ExpectationType`:
enumeration of the three expectation modes. -/
inductive ExpectationType where
  | observed
  | apriori
  | aposteriori
deriving DecidableEq

/-- Embedding of `spey/hypothesis_testing/asymptotic_calculator.py`:
`AsymptoticTestStatisticsDistribution(shift, cutoff=-inf)`.
`cutoff = none` models the float `-inf`. -/
structure AsymptoticTestStatisticsDistribution where
  shift : ℝ
  cutoff : Option ℝ

namespace AsymptoticTestStatisticsDistribution

/-- Embedding of `AsymptoticTestStatisticsDistribution.pvalue`:
`return_value = multivariate_normal.cdf(self.shift - value)` and the result is
`return_value if return_value >= self.cutoff else nan`.  With `cutoff = -inf`
the comparison always succeeds. -/
noncomputable def pvalue (Φ : ℝ → ℝ) (d : AsymptoticTestStatisticsDistribution)
    (value : ℝ) : Option ℝ :=
  let return_value := Φ (d.shift - value)
  match d.cutoff with
  | none => some return_value
  | some c => if return_value ≥ c then some return_value else none

/-- Embedding of `AsymptoticTestStatisticsDistribution.cdf`:
`multivariate_normal.cdf(value - self.shift)`. -/
noncomputable def cdf (Φ : ℝ → ℝ) (d : AsymptoticTestStatisticsDistribution)
    (value : ℝ) : ℝ :=
  Φ (value - d.shift)

/-- Embedding of `AsymptoticTestStatisticsDistribution.expected_value`:
`tot = nsigma + self.shift; return tot if tot > self.cutoff else self.cutoff`.
With `cutoff = -inf` (`none`) this is `tot`; with a real cutoff it is the max. -/
noncomputable def expected_value (d : AsymptoticTestStatisticsDistribution)
    (nsigma : ℝ) : ℝ :=
  let tot := nsigma + d.shift
  match d.cutoff with
  | none => tot
  | some c => if tot > c then tot else c

end AsymptoticTestStatisticsDistribution

/-- Embedding of `madstats/tools/utils_cls.py`, `pvalues` (lines 97-116):
`CLsb = sig_plus_bkg_distribution.pvalue(t)`, `CLb = bkg_only_distribution.pvalue(t)`,
`CLs = np.true_divide(CLsb, CLb)` with division warnings suppressed, and the
returned CLs entry is `CLs if CLb != 0.0 else 0.0`.  The Python lists of length
one around each value are dropped; `none` models a `nan` p-value, and a `nan`
`CLb` compares unequal to `0.0`, so it propagates `nan` into CLs. -/
noncomputable def pvalues (Φ : ℝ → ℝ) (teststatistic : ℝ)
    (sig_plus_bkg_distribution bkg_only_distribution : AsymptoticTestStatisticsDistribution) :
    Option ℝ × Option ℝ × Option ℝ :=
  let CLsb := sig_plus_bkg_distribution.pvalue Φ teststatistic
  let CLb := bkg_only_distribution.pvalue Φ teststatistic
  let CLs : Option ℝ :=
    match CLb with
    | some b =>
      if b = 0 then some 0
      else
        match CLsb with
        | some a => some (a / b)
        | none => none
    | none => none
  (CLsb, CLb, CLs)

/-- Embedding of `madstats/tools/utils_cls.py`, `expected_pvalues` (lines 119-148):
the p-value triples at the background-only expected values for
`nsigma in [2, 1, 0, -1, -2]`, transposed into three lists of five. -/
noncomputable def expected_pvalues (Φ : ℝ → ℝ)
    (sig_plus_bkg_distribution bkg_only_distribution : AsymptoticTestStatisticsDistribution) :
    List (Option ℝ) × List (Option ℝ) × List (Option ℝ) :=
  let pts := [(2 : ℝ), 1, 0, -1, -2].map fun nsigma =>
    pvalues Φ (bkg_only_distribution.expected_value nsigma)
      sig_plus_bkg_distribution bkg_only_distribution
  (pts.map (fun p => p.1), pts.map (fun p => p.2.1), pts.map (fun p => p.2.2))

/-- Embedding of `madstats/tools/utils_cls.py`, `compute_confidence_level` line 33:
`AsymptoticTestStatisticsDistribution(-sqrt_qmuA, -np.inf)`. -/
noncomputable def ccl_sig_plus_bkg_distribution (sqrt_qmuA : ℝ) :
    AsymptoticTestStatisticsDistribution :=
  ⟨-sqrt_qmuA, none⟩

/-- Embedding of `madstats/tools/utils_cls.py`, `compute_confidence_level` line 34:
`AsymptoticTestStatisticsDistribution(0.0, -np.inf)`. -/
noncomputable def ccl_bkg_only_distribution : AsymptoticTestStatisticsDistribution :=
  ⟨0, none⟩

/-- Embedding of `madstats/tools/utils_cls.py`, `compute_confidence_level` (lines 18-44):
observed/apriori use `pvalues` at the test statistic, aposteriori uses
`expected_pvalues`; the function returns the CLs entries for `test_stat ==
"qtilde"` and the CLsb entries otherwise.  The scalar observed branch is
lifted to a one-element list exactly as the Python lists are. -/
noncomputable def compute_confidence_level (Φ : ℝ → ℝ) (sqrt_qmuA test_statistic : ℝ)
    (expected : ExpectationType) (test_stat : String) : List (Option ℝ) :=
  let sig_plus_bkg_distribution := ccl_sig_plus_bkg_distribution sqrt_qmuA
  let bkg_only_distribution := ccl_bkg_only_distribution
  let res : List (Option ℝ) × List (Option ℝ) × List (Option ℝ) :=
    if expected = ExpectationType.observed ∨ expected = ExpectationType.apriori then
      let p := pvalues Φ test_statistic sig_plus_bkg_distribution bkg_only_distribution
      ([p.1], [p.2.1], [p.2.2])
    else
      expected_pvalues Φ sig_plus_bkg_distribution bkg_only_distribution
  if test_stat = "qtilde" then res.2.2 else res.1

/-- Embedding of `madstats/tools/utils_cls.py`, `teststatistics` line 82:
`qmu = 0.0 if 2.0 * (nll - min_nll) < 0.0 else 2.0 * (nll - min_nll)`. -/
noncomputable def qmu_clamped (nll min_negloglikelihood : ℝ) : ℝ :=
  if 2 * (nll - min_negloglikelihood) < 0 then 0 else 2 * (nll - min_negloglikelihood)

/-- Embedding of `madstats/tools/utils_cls.py`, `teststatistics` line 83:
`qmuA = max(2.0 * (nllA - min_nllA), 0.0)`. -/
noncomputable def qmuA_clamped (nllA min_negloglikelihood_asimov : ℝ) : ℝ :=
  max (2 * (nllA - min_negloglikelihood_asimov)) 0

/-- Embedding of `madstats/tools/utils_cls.py`, `teststatistics` (lines 47-94), scalar path:
the callable/array unpacking of lines 67-80 reduces to the four scalar NLL
inputs; returns `(sqrt_qmu, sqrt_qmuA, test_statistics)`. -/
noncomputable def teststatistics (nllA min_negloglikelihood_asimov nll
    min_negloglikelihood : ℝ) (test_stat : String) : ℝ × ℝ × ℝ :=
  let qmu := qmu_clamped nll min_negloglikelihood
  let qmuA := qmuA_clamped nllA min_negloglikelihood_asimov
  let sqrt_qmu := Real.sqrt qmu
  let sqrt_qmuA := Real.sqrt qmuA
  let test_statistics :=
    if test_stat = "q" ∨ test_stat = "q0" then sqrt_qmu - sqrt_qmuA
    else
      if sqrt_qmu ≤ sqrt_qmuA then sqrt_qmu - sqrt_qmuA
      else (qmu - qmuA) / (2 * sqrt_qmuA)
  (sqrt_qmu, sqrt_qmuA, test_statistics)

/-- Embedding of `spey/hypothesis_testing/upper_limits.py`, `find_root_limits` first loop
(lines 29-33): `while computer(low) > loc: low *= 0.5; if low < 1e-10: break`.
The loop is embedded with an explicit fuel; `none` means the fuel ran out
before the loop exited, every actual execution of the Python loop is a `some`
result for a large enough fuel. -/
def bracket_low (computer : ℚ → ℚ) (loc : ℚ) : ℕ → ℚ → Option ℚ
  | 0, _ => none
  | fuel + 1, low =>
    if computer low > loc then
      let low2 := low * 0.5
      if low2 < 1e-10 then some low2 else bracket_low computer loc fuel low2
    else some low

/-- Embedding of `spey/hypothesis_testing/upper_limits.py`, `find_root_limits` second loop
(lines 34-37): `while computer(hig) < loc: hig *= 2.0; if hig > 1e10: break`. -/
def bracket_hig (computer : ℚ → ℚ) (loc : ℚ) : ℕ → ℚ → Option ℚ
  | 0, _ => none
  | fuel + 1, hig =>
    if computer hig < loc then
      let hig2 := hig * 2
      if hig2 > 1e10 then some hig2 else bracket_hig computer loc fuel hig2
    else some hig

/-- Embedding of `spey/hypothesis_testing/upper_limits.py`, `find_root_limits` (lines 15-38):
runs the two bracketing loops from `low_ini` and `hig_ini` and returns the
pair.  The fuel threads through both loops. -/
def find_root_limits (computer : ℚ → ℚ) (loc low_ini hig_ini : ℚ) (fuel : ℕ) :
    Option (ℚ × ℚ) :=
  match bracket_low computer loc fuel low_ini, bracket_hig computer loc fuel hig_ini with
  | some low, some hig => some (low, hig)
  | _, _ => none

/-- Python truthiness of a float-or-nan: `0.0` is falsy, every other float and
`nan` are truthy (`none` models `nan`). -/
def py_truthy : Option ℚ → Bool
  | none => true
  | some v => decide (v ≠ 0)

/-- Embedding of `np.isnan` on a float-or-nan. -/
def py_isnan : Option ℚ → Bool
  | none => true
  | some _ => false

/-- Embedding of `spey/hypothesis_testing/upper_limits.py`, line 84 (and identically 85):
`low_init = 1.0 if not low_init or not np.isnan(low_init) else low_init`,
under the comment "make sure that initial values are not nan or None". -/
def sanitize_init (low_init : Option ℚ) : Option ℚ :=
  if !(py_truthy low_init) || !(py_isnan low_init) then some 1 else low_init

/-- Embedding of `spey/hypothesis_testing/upper_limits.py`, lines 84-85 followed by line 116:
the pair `(low_ini, hig_ini)` that `find_poi_upper_limit` passes to
`find_root_limits` as the starting lower and upper bounds. -/
def fpul_init_bounds (low_init hig_init : Option ℚ) : Option ℚ × Option ℚ :=
  (sanitize_init low_init, sanitize_init hig_init)

/-- Embedding of `spey/hypothesis_testing/upper_limits.py`, line 81:
`test_stat = "q" if allow_negative_signal else "qtilde"`. -/
def fpul_test_stat (allow_negative_signal : Bool) : String :=
  if allow_negative_signal then "q" else "qtilde"

/-- Modelled from the spec: `spey.hypothesis_testing.test_statistics.compute_teststatistics`
(module `spey/hypothesis_testing/test_statistics.py`, not under src/, only its
caller `find_poi_upper_limit` is).  Per spec section 4.1 it feeds the four scalar
likelihood quantities - NLL at the test POI (as `-logpdf(poi)`) and the fitted
minima - into the asymptotic formulae embodied by `teststatistics`, returning
`(sqrt_qmu, sqrt_qmuA, test_statistic)`. -/
noncomputable def compute_teststatistics (poi_test : ℝ)
    (maximum_likelihood : ℝ × ℝ) (logpdf : ℝ → ℝ)
    (maximum_asimov_likelihood : ℝ × ℝ) (asimov_logpdf : ℝ → ℝ)
    (test_stat : String) : ℝ × ℝ × ℝ :=
  teststatistics (-(asimov_logpdf poi_test)) maximum_asimov_likelihood.2
    (-(logpdf poi_test)) maximum_likelihood.2 test_stat

/-- Modelled from the spec: `spey.hypothesis_testing.utils.compute_confidence_level`
(module `spey/hypothesis_testing/utils.py`, not under src/, only its caller
`find_poi_upper_limit` is).  Per spec section 4.2 it builds signal-plus-background
`= shift(-sqrt_qmuA)` and background-only `= shift(0)`, both with cutoff `-inf`
except that expected computations use cutoff `0` on the signal-plus-background
side only, and returns the observed and expected CL lists the caller indexes
with `[0 if expected == observed else 1]`: CLs lists for `q`/`qtilde`, CLsb
lists for `q0`. -/
noncomputable def spey_compute_confidence_level (Φ : ℝ → ℝ)
    (sqrt_qmuA test_statistic : ℝ) (test_stat : String) :
    List (Option ℝ) × List (Option ℝ) :=
  let sig_plus_bkg_obs : AsymptoticTestStatisticsDistribution := ⟨-sqrt_qmuA, none⟩
  let sig_plus_bkg_exp : AsymptoticTestStatisticsDistribution := ⟨-sqrt_qmuA, some 0⟩
  let bkg_only : AsymptoticTestStatisticsDistribution := ⟨0, none⟩
  let obs := pvalues Φ test_statistic sig_plus_bkg_obs bkg_only
  let exp5 := expected_pvalues Φ sig_plus_bkg_exp bkg_only
  if test_stat = "q0" then ([obs.1], exp5.1) else ([obs.2.2], exp5.2.2)

/-- The CLs value of the observed branch of `spey_compute_confidence_level`:
the third (ratio) component of `pvalues`, not the first (CLsb) one. -/
noncomputable def cls_observed (Φ : ℝ → ℝ) (sqrt_qmuA test_statistic : ℝ) : Option ℝ :=
  (pvalues Φ test_statistic ⟨-sqrt_qmuA, none⟩ ⟨0, none⟩).2.2

/-- The CLs list of the expected branch of `spey_compute_confidence_level`:
the third (ratio) components of `expected_pvalues`. -/
noncomputable def cls_expected_list (Φ : ℝ → ℝ) (sqrt_qmuA : ℝ) : List (Option ℝ) :=
  (expected_pvalues Φ ⟨-sqrt_qmuA, some 0⟩ ⟨0, none⟩).2.2

/-- Embedding of `spey/hypothesis_testing/upper_limits.py`, `computer` (lines 87-106):
computes the test statistics at the POI, maps `1 - x` over the selected
confidence-level list (`[0]` for observed, `[1]` for expected) and returns
`pvalue[pvalue_idx] - confidence_level`.  Out-of-range indexing is modelled as
`none`, as is a `nan` p-value. -/
noncomputable def computer (Φ : ℝ → ℝ) (maximum_likelihood : ℝ × ℝ)
    (logpdf : ℝ → ℝ) (maximum_asimov_likelihood : ℝ × ℝ) (asimov_logpdf : ℝ → ℝ)
    (expected : ExpectationType) (confidence_level : ℝ) (test_stat : String)
    (poi_test : ℝ) (pvalue_idx : ℕ) : Option ℝ :=
  let r := compute_teststatistics poi_test maximum_likelihood logpdf
    maximum_asimov_likelihood asimov_logpdf test_stat
  let lists := spey_compute_confidence_level Φ r.2.1 r.2.2 test_stat
  let pvalue := (if expected = ExpectationType.observed then lists.1 else lists.2).map
    (Option.map fun x => 1 - x)
  (pvalue.getD pvalue_idx none).map fun p => p - confidence_level

/-- Embedding of `spey/combiner/statistics_combiner.py`, body of the member loop of
`StatisticsCombiner.likelihood` (lines 136-156): a member model is its
likelihood value at `(poi_test, expected)`, with `none` modelling a raised
`NegativeExpectedYields` (the `except` branch sets `nll = np.nan`, warns, and
the `np.isnan(nll)` check breaks out of the loop). -/
def runMembers (acc : ℝ) : List (Option ℝ) → Option ℝ
  | [] => some acc
  | none :: _ => none
  | some v :: rest => runMembers (acc + v) rest

namespace StatisticsCombiner

/-- Embedding of `spey/combiner/statistics_combiner.py`, `StatisticsCombiner.likelihood`
(lines 107-158).  A member statistical model is abstracted to its likelihood
response `ℝ → ExpectationType → Option ℝ` (`none` = raises
`NegativeExpectedYields`); the final line `return nll if return_nll or
np.isnan(nll) else np.exp(-nll)` is kept. -/
noncomputable def likelihood (models : List (ℝ → ExpectationType → Option ℝ))
    (poi_test : ℝ) (expected : ExpectationType) (return_nll : Bool) : Option ℝ :=
  match runMembers 0 (models.map fun m => m poi_test expected) with
  | none => none
  | some nll => some (if return_nll then nll else Real.exp (-nll))

end StatisticsCombiner

/-- Embedding of `madstats/base/recorder.py`: the joint state of the class-level switch
`Recorder.RECORD` and one instance's two caches.  The dictionary
`_poi_test_record` is modelled as a lookup function, the per-expectation
best-fit slot `_maximum_likelihood_record` holds `none` for the `False`
sentinel.  The `np.float32` rounding of keys and values is modelled as exact.  -/
structure RecorderState where
  RECORD : Bool
  poi_test_record : ExpectationType → ℚ → Option ℚ
  maximum_likelihood_record : ExpectationType → Option (ℚ × ℚ)

namespace Recorder

/-- Embedding of `Recorder.__init__`: empty caches; `Recorder.RECORD = False` by default. -/
def init : RecorderState :=
  ⟨false, fun _ _ => none, fun _ => none⟩

/-- Embedding of `Recorder.turn_off`. -/
def turn_off (s : RecorderState) : RecorderState :=
  { s with RECORD := false }

/-- Embedding of `Recorder.turn_on`. -/
def turn_on (s : RecorderState) : RecorderState :=
  { s with RECORD := true }

/-- Embedding of `Recorder.is_on`. -/
def is_on (s : RecorderState) : Bool :=
  s.RECORD

/-- Embedding of `Recorder.get_poi_test` (lines 56-62): when the switch is on, dictionary
lookup with `False` (`none`) default; when off, always `False`. -/
def get_poi_test (s : RecorderState) (expected : ExpectationType) (poi_test : ℚ) :
    Option ℚ :=
  if is_on s then s.poi_test_record expected poi_test else none

/-- Embedding of `Recorder.get_maximum_likelihood` (lines 64-69). -/
def get_maximum_likelihood (s : RecorderState) (expected : ExpectationType) :
    Option (ℚ × ℚ) :=
  if is_on s then s.maximum_likelihood_record expected else none

/-- Embedding of `Recorder.record_poi_test` (lines 71-76): unconditionally updates the
dictionary entry, with no check of the switch. -/
def record_poi_test (s : RecorderState) (expected : ExpectationType)
    (poi_test negative_loglikelihood : ℚ) : RecorderState :=
  { s with poi_test_record := fun e p =>
      if e = expected ∧ p = poi_test then some negative_loglikelihood
      else s.poi_test_record e p }

/-- Embedding of `Recorder.record_maximum_likelihood` (lines 78-89): `record = True`, and
it is set to `False` only when `get_maximum_likelihood` (which reads through
the switch) returns a pair whose stored NLL is strictly below the new one. -/
def record_maximum_likelihood (s : RecorderState) (expected : ExpectationType)
    (poi_test negative_loglikelihood : ℚ) : RecorderState :=
  let record : Bool :=
    match get_maximum_likelihood s expected with
    | none => true
    | some prev => !decide (prev.2 < negative_loglikelihood)
  if record then
    { s with maximum_likelihood_record := fun e =>
        if e = expected then some (poi_test, negative_loglikelihood)
        else s.maximum_likelihood_record e }
  else s

end Recorder

/-- Source module `spey/base/model_config.py` is not under src/; the fields `fit` reads are
modelled abstractly: `poi_index`, `suggested_init`, and the bound-deriving
method `fixed_poi_bounds` as an opaque-to-us function field. -/
structure ModelConfig where
  poi_index : ℕ
  suggested_init : List ℚ
  fixed_poi_bounds : Option ℚ → List (ℚ × ℚ)

/-- A scipy-style constraint dictionary `{"type": "eq", "fun": ...}`. -/
structure FitConstraint where
  ctype : String
  cfun : List ℚ → ℚ

/-- Embedding of `spey/optimizer/core.py`, lines 27-32: the equality constraint appended
when a POI is fixed, `lambda v: v[poi_index] - fixed_poi_value`. -/
def poi_constraint (poi_index : ℕ) (fixed_poi_value : ℚ) : FitConstraint :=
  ⟨"eq", fun v => v.getD poi_index 0 - fixed_poi_value⟩

/-- The caller-observable outcome of `fit` up to the external `minimize` call:
the arguments `fit` passes to `minimize`, plus the caller's `constraints` list
object after the call (`none` when the caller supplied no list; the list the
caller still holds is mutated in place by `constraints.append`). -/
structure FitCall where
  init_pars : List ℚ
  bounds : List (ℚ × ℚ)
  constraints : List FitConstraint
  caller_constraints_after : Option (List FitConstraint)

/-- Embedding of `spey/optimizer/core.py`, `fit` (lines 8-46), cut at the external
`minimize` boundary.  `init_pars = [*(initial_parameters or suggested_init)]`
copies its list (Python `or` treats an empty list as falsy), so the caller's
`initial_parameters` is never mutated; `constraints = constraints if
constraints is not None else []` aliases the caller's list, so the
`constraints.append` under `fixed_poi_value is not None` is visible to the
caller. -/
def fit (model_configuration : ModelConfig)
    (initial_parameters : Option (List ℚ)) (bounds : Option (List (ℚ × ℚ)))
    (fixed_poi_value : Option ℚ) (constraints : Option (List FitConstraint)) :
    FitCall :=
  let init_pars : List ℚ :=
    match initial_parameters with
    | some l => if l = [] then model_configuration.suggested_init else l
    | none => model_configuration.suggested_init
  let par_bounds : List (ℚ × ℚ) :=
    match bounds with
    | some l => if l = [] then model_configuration.fixed_poi_bounds fixed_poi_value else l
    | none => model_configuration.fixed_poi_bounds fixed_poi_value
  match fixed_poi_value with
  | none =>
    { init_pars := init_pars, bounds := par_bounds,
      constraints := constraints.getD [],
      caller_constraints_after := constraints }
  | some v =>
    let appended := (constraints.getD []) ++ [poi_constraint model_configuration.poi_index v]
    { init_pars := init_pars.set model_configuration.poi_index v,
      bounds := par_bounds,
      constraints := appended,
      caller_constraints_after :=
        constraints.map fun l => l ++ [poi_constraint model_configuration.poi_index v] }

/-! ## Theorems -/

/-- C10: when `fit` is called with a non-None `fixed_poi_value` and a
caller-supplied `constraints` list, it appends the fixed-POI equality
constraint to that very list, mutating the caller's argument object
(observable after the call: the list gained an element); when
`fixed_poi_value` is None or no constraints list is supplied, no
caller-visible list is modified. -/
theorem fit_mutates_caller_constraints (cfg : ModelConfig)
    (ip : Option (List ℚ)) (b : Option (List (ℚ × ℚ))) (v : ℚ)
    (l : List FitConstraint) (fp : Option ℚ) :
    (fit cfg ip b (some v) (some l)).caller_constraints_after
      = some (l ++ [poi_constraint cfg.poi_index v])
    ∧ l ++ [poi_constraint cfg.poi_index v] ≠ l
    ∧ (fit cfg ip b none (some l)).caller_constraints_after = some l
    ∧ (fit cfg ip b fp none).caller_constraints_after = none := by
  refine ⟨by simp [fit], ?_, by simp [fit], ?_⟩
  · intro h
    have := congrArg List.length h
    simp at this
  · cases fp <;> simp [fit]

/-- C8 counterexample: with the recorder switch off (the initial state),
`record_poi_test` is not a no-op — it changes the cache — and after turning the
switch on the entry recorded while the switch was off becomes visible. -/
theorem recorder_off_record_not_noop :
    (Recorder.record_poi_test Recorder.init ExpectationType.observed 1 5).poi_test_record
        ExpectationType.observed 1 = some 5
    ∧ Recorder.init.poi_test_record ExpectationType.observed 1 = none
    ∧ Recorder.init.RECORD = false
    ∧ Recorder.get_poi_test
        (Recorder.turn_on (Recorder.record_poi_test Recorder.init ExpectationType.observed 1 5))
        ExpectationType.observed 1 = some 5 := by
  refine ⟨?_, rfl, rfl, ?_⟩ <;>
    simp [Recorder.record_poi_test, Recorder.get_poi_test, Recorder.turn_on,
      Recorder.is_on, Recorder.init]

/-- C8 amended: when the global switch is off, `get_poi_test` and
`get_maximum_likelihood` return the not-found sentinel regardless of the cache
contents, but `record_poi_test` and `record_maximum_likelihood` still update
the cache (the recording methods never consult the switch;
`record_maximum_likelihood` even overwrites unconditionally because its guard
reads the stored slot through the off switch); turning the switch back on
makes every recorded entry visible, whether it was recorded while the switch
was on or off. -/
theorem recorder_switch_off_amended (f : ExpectationType → ℚ → Option ℚ)
    (g : ExpectationType → Option (ℚ × ℚ)) (e : ExpectationType) (p v : ℚ) :
    Recorder.get_poi_test ⟨false, f, g⟩ e p = none
    ∧ Recorder.get_maximum_likelihood ⟨false, f, g⟩ e = none
    ∧ (Recorder.record_poi_test ⟨false, f, g⟩ e p v).poi_test_record e p = some v
    ∧ (Recorder.record_maximum_likelihood ⟨false, f, g⟩ e p v).maximum_likelihood_record e
        = some (p, v)
    ∧ Recorder.get_poi_test (Recorder.turn_on ⟨false, f, g⟩) e p = f e p
    ∧ Recorder.get_maximum_likelihood (Recorder.turn_on ⟨false, f, g⟩) e = g e := by
  refine ⟨?_, ?_, ?_, ?_, ?_, ?_⟩ <;>
    simp [Recorder.get_poi_test, Recorder.get_maximum_likelihood, Recorder.is_on,
      Recorder.record_poi_test, Recorder.record_maximum_likelihood, Recorder.turn_on]

/-- C9 counterexample: with the switch on and best-fit slot `(POI, NLL) =
(1, 5)`, recording the tied NLL `5` at POI `2` overwrites the slot with
`(2, 5)` — the second writer wins on a tie, the slot is updated although the
new NLL is not strictly lower. -/
theorem record_ml_tie_overwrites :
    (Recorder.record_maximum_likelihood
        ⟨true, fun _ _ => none, fun _ => some (1, 5)⟩ ExpectationType.observed 2 5).maximum_likelihood_record
        ExpectationType.observed = some (2, 5)
    ∧ ((2 : ℚ), (5 : ℚ)) ≠ ((1 : ℚ), (5 : ℚ)) := by
  constructor
  · simp [Recorder.record_maximum_likelihood, Recorder.get_maximum_likelihood, Recorder.is_on]
  · simp

/-- C9 amended: while the switch is on, the per-ExpectationType best-fit slot
is updated exactly when the newly recorded NLL is less than or equal to the
stored one — so the stored NLL is monotonically non-increasing, but on a tie
the last writer's (POI, NLL) pair is kept, not the first writer's.  (With the
switch off the guard is bypassed and every record overwrites.) -/
theorem record_ml_amended (f : ExpectationType → ℚ → Option ℚ)
    (g : ExpectationType → Option (ℚ × ℚ)) (e : ExpectationType) (p v p0 v0 : ℚ)
    (hg : g e = some (p0, v0)) :
    (v ≤ v0 →
      (Recorder.record_maximum_likelihood ⟨true, f, g⟩ e p v).maximum_likelihood_record e
        = some (p, v))
    ∧ (v0 < v →
      (Recorder.record_maximum_likelihood ⟨true, f, g⟩ e p v).maximum_likelihood_record e
        = some (p0, v0)) := by
  constructor
  · intro hle
    simp [Recorder.record_maximum_likelihood, Recorder.get_maximum_likelihood,
      Recorder.is_on, hg, not_lt.2 hle]
  · intro hlt
    simp [Recorder.record_maximum_likelihood, Recorder.get_maximum_likelihood,
      Recorder.is_on, hg, hlt]

/-- Witness for `record_ml_amended` at concrete inputs: a strictly lower NLL
(3 ≤ 5) replaces the slot, a strictly higher one (5 < 7) leaves it. -/
theorem record_ml_amended_witness :
    (Recorder.record_maximum_likelihood
        ⟨true, fun _ _ => none, fun _ => some (1, 5)⟩ ExpectationType.observed 2 3).maximum_likelihood_record
        ExpectationType.observed = some (2, 3)
    ∧ (Recorder.record_maximum_likelihood
        ⟨true, fun _ _ => none, fun _ => some (1, 5)⟩ ExpectationType.observed 2 7).maximum_likelihood_record
        ExpectationType.observed = some (1, 5) :=
  ⟨(record_ml_amended (fun _ _ => none) (fun _ => some (1, 5))
      ExpectationType.observed 2 3 1 5 rfl).1 (by norm_num),
   (record_ml_amended (fun _ _ => none) (fun _ => some (1, 5))
      ExpectationType.observed 2 7 1 5 rfl).2 (by norm_num)⟩

/-- C6: `find_poi_upper_limit` resets every caller-supplied value of
`low_init`/`hig_init` to `1.0` before the bracketing call — only a `nan`
survives the sanitization — contradicting the source's own comment ("make sure
that initial values are not nan or None") and its parameter documentation.
Evaluated at the failing input `low_init = 2.0, hig_init = 4.0`. -/
theorem fpul_init_sanitize_bug (v w : ℚ) :
    fpul_init_bounds (some 2) (some 4) = (some 1, some 1)
    ∧ fpul_init_bounds (some v) (some w) = (some 1, some 1)
    ∧ sanitize_init none = none := by
  refine ⟨?_, ?_, rfl⟩ <;>
    simp [fpul_init_bounds, sanitize_init, py_truthy, py_isnan]

lemma qmu_clamped_eq_max (nll m : ℝ) : qmu_clamped nll m = max (2 * (nll - m)) 0 := by
  unfold qmu_clamped
  split_ifs with h
  · exact (max_eq_right h.le).symm
  · exact (max_eq_left (not_lt.1 h)).symm

/-- C3: for all real NLL inputs and every kind in `q`, `q0`, `qtilde`:
`teststatistics` returns `sqrt_qmu = sqrt (max (2*(nll - min_nll)) 0)` and
`sqrt_qmuA = sqrt (max (2*(nllA - min_nllA)) 0)` (both clamps nonnegative, and
`qmu = 0` whenever `nll ≤ min_nll`); the signed statistic is
`sqrt_qmu - sqrt_qmuA` for kinds `q` and `q0`, and for `qtilde` it is the same
difference when `sqrt_qmu ≤ sqrt_qmuA` and `(qmu - qmuA)/(2*sqrt_qmuA)`
otherwise. -/
theorem teststatistics_spec (nllA mA nll m : ℝ) (kind : String) :
    (teststatistics nllA mA nll m kind).1 = Real.sqrt (max (2 * (nll - m)) 0)
    ∧ (teststatistics nllA mA nll m kind).2.1 = Real.sqrt (max (2 * (nllA - mA)) 0)
    ∧ 0 ≤ qmu_clamped nll m
    ∧ 0 ≤ qmuA_clamped nllA mA
    ∧ (nll ≤ m → qmu_clamped nll m = 0)
    ∧ ((kind = "q" ∨ kind = "q0") →
        (teststatistics nllA mA nll m kind).2.2
          = (teststatistics nllA mA nll m kind).1 - (teststatistics nllA mA nll m kind).2.1)
    ∧ ((teststatistics nllA mA nll m "qtilde").2.2
          = if (teststatistics nllA mA nll m "qtilde").1
              ≤ (teststatistics nllA mA nll m "qtilde").2.1
            then (teststatistics nllA mA nll m "qtilde").1
              - (teststatistics nllA mA nll m "qtilde").2.1
            else (qmu_clamped nll m - qmuA_clamped nllA mA)
              / (2 * (teststatistics nllA mA nll m "qtilde").2.1)) := by
  refine ⟨?_, ?_, ?_, ?_, ?_, ?_, ?_⟩
  · simp [teststatistics, qmu_clamped_eq_max]
  · simp [teststatistics, qmuA_clamped]
  · rw [qmu_clamped_eq_max]; exact le_max_right _ _
  · exact le_max_right _ _
  · intro h
    rw [qmu_clamped_eq_max]
    exact max_eq_right (by linarith)
  · intro h
    rcases h with h | h <;> subst h <;> simp [teststatistics]
  · have hq : ¬("qtilde" = "q" ∨ "qtilde" = "q0") := by decide
    simp only [teststatistics, if_neg hq]

/-- Witness for `teststatistics_spec` at `nllA = mA = nll = m = 0`, kind `q`:
the clamp hypothesis `nll ≤ min_nll` and the kind hypothesis are discharged
concretely. -/
theorem teststatistics_spec_witness :
    qmu_clamped 0 0 = 0
    ∧ (teststatistics 0 0 0 0 "q").2.2
        = (teststatistics 0 0 0 0 "q").1 - (teststatistics 0 0 0 0 "q").2.1 :=
  ⟨(teststatistics_spec 0 0 0 0 "q").2.2.2.2.1 le_rfl,
   (teststatistics_spec 0 0 0 0 "q").2.2.2.2.2.1 (Or.inl rfl)⟩

/-- C4: for every test-statistic value and every pair of distributions,
`pvalues` returns `CLs = CLsb / CLb`, except that CLs is exactly `0.0` (not
`nan`, not an exception) whenever `CLb = 0`. -/
theorem pvalues_cls_guard (Φ : ℝ → ℝ) (t : ℝ)
    (sb bkg : AsymptoticTestStatisticsDistribution) :
    ((pvalues Φ t sb bkg).2.1 = some 0 → (pvalues Φ t sb bkg).2.2 = some 0)
    ∧ (∀ a b : ℝ, (pvalues Φ t sb bkg).1 = some a →
        (pvalues Φ t sb bkg).2.1 = some b → b ≠ 0 →
        (pvalues Φ t sb bkg).2.2 = some (a / b)) := by
  constructor
  · intro h
    simp only [pvalues] at h ⊢
    rw [h]
    simp
  · intro a b ha hb hbne
    simp only [pvalues] at ha hb ⊢
    rw [ha, hb]
    simp [hbne]

/-- Witness for `pvalues_cls_guard`: with the constant CDF `0` both p-values
are `0`, so the guard fires and CLs is exactly `0`; with the constant CDF `1`
the ratio branch gives `1 / 1`. -/
theorem pvalues_cls_guard_witness :
    (pvalues (fun _ => (0 : ℝ)) 0 ⟨0, none⟩ ⟨0, none⟩).2.2 = some 0
    ∧ (pvalues (fun _ => (1 : ℝ)) 0 ⟨0, none⟩ ⟨0, none⟩).2.2 = some (1 / 1) :=
  ⟨(pvalues_cls_guard (fun _ => 0) 0 ⟨0, none⟩ ⟨0, none⟩).1
      (by simp [pvalues, AsymptoticTestStatisticsDistribution.pvalue]),
   (pvalues_cls_guard (fun _ => 1) 0 ⟨0, none⟩ ⟨0, none⟩).2 1 1
      (by simp [pvalues, AsymptoticTestStatisticsDistribution.pvalue])
      (by simp [pvalues, AsymptoticTestStatisticsDistribution.pvalue])
      one_ne_zero⟩

/-- C7 counterexample: at the concrete input `sqrt_qmuA = 1`,
`compute_confidence_level` constructs the signal-plus-background distribution
with cutoff `-inf` (`none`), not `0` — and it uses the same constructor for
every ExpectationType, including aposteriori, so the claimed aposteriori
cutoff of `0` on the signal-plus-background side is false. -/
theorem ccl_aposteriori_cutoff_not_zero :
    (ccl_sig_plus_bkg_distribution 1).cutoff = none
    ∧ ccl_bkg_only_distribution.cutoff = none
    ∧ (none : Option ℝ) ≠ some 0 :=
  ⟨rfl, rfl, by simp⟩

/-- C7 amended: `compute_confidence_level` builds both distributions with
cutoff `-inf` for every ExpectationType (the construction does not depend on
the expectation type at all), and `pvalue` returns `nan` instead of a value
below a finite cutoff. -/
theorem ccl_cutoffs_amended (sqrt_qmuA : ℝ) :
    (ccl_sig_plus_bkg_distribution sqrt_qmuA).cutoff = none
    ∧ ccl_bkg_only_distribution.cutoff = none
    ∧ (∀ (d : AsymptoticTestStatisticsDistribution) (Φ : ℝ → ℝ) (x c : ℝ),
        d.cutoff = some c → Φ (d.shift - x) < c → d.pvalue Φ x = none) := by
  refine ⟨rfl, rfl, ?_⟩
  intro d Φ x c hc hlt
  simp only [AsymptoticTestStatisticsDistribution.pvalue, hc]
  rw [if_neg (not_le.2 hlt)]

/-- Witness for `ccl_cutoffs_amended`: a distribution with cutoff `1` and the
constant CDF `0` yields a `nan` p-value. -/
theorem ccl_cutoffs_amended_witness :
    AsymptoticTestStatisticsDistribution.pvalue (fun _ => (0 : ℝ)) ⟨0, some 1⟩ 0 = none :=
  (ccl_cutoffs_amended 1).2.2 ⟨0, some 1⟩ (fun _ => 0) 0 1 rfl (by norm_num)

lemma runMembers_all_some (ms : List (Option ℝ)) (acc : ℝ)
    (h : ∀ x ∈ ms, x ≠ none) :
    runMembers acc ms = some (acc + (ms.map fun x => x.getD 0).sum) := by
  induction ms generalizing acc with
  | nil => simp [runMembers]
  | cons hd tl ih =>
    cases hd with
    | none => exact absurd rfl (h none (by simp))
    | some v =>
      rw [runMembers, ih (acc + v) fun x hx => h x (List.mem_cons_of_mem _ hx)]
      simp [add_assoc]

lemma runMembers_has_none (ms : List (Option ℝ)) (acc : ℝ) (h : none ∈ ms) :
    runMembers acc ms = none := by
  induction ms generalizing acc with
  | nil => simp at h
  | cons hd tl ih =>
    cases hd with
    | none => rfl
    | some v =>
      rcases List.mem_cons.1 h with h1 | h2
      · exact absurd h1 (by simp)
      · exact ih (acc + v) h2

lemma runMembers_stops_at_none (pre post : List (Option ℝ)) (acc : ℝ) :
    runMembers acc (pre ++ none :: post) = runMembers acc (pre ++ [none]) := by
  induction pre generalizing acc with
  | nil => rfl
  | cons hd tl ih =>
    cases hd with
    | none => rfl
    | some v =>
      simp only [List.cons_append, runMembers]
      exact ih (acc + v)

/-- C1: for every POI value and ExpectationType, when no member raises
`NegativeExpectedYields`, `StatisticsCombiner.likelihood` returns the sum of
the members' likelihood values; the moment any member raises, the joint result
is `nan` (`none`), and the members after the first raising one do not change
the result (the loop breaks). -/
theorem combiner_likelihood_spec (models : List (ℝ → ExpectationType → Option ℝ))
    (mu : ℝ) (expected : ExpectationType) :
    ((∀ m ∈ models, m mu expected ≠ none) →
      StatisticsCombiner.likelihood models mu expected true
        = some ((models.map fun m => (m mu expected).getD 0).sum))
    ∧ ((∃ m ∈ models, m mu expected = none) →
      StatisticsCombiner.likelihood models mu expected true = none)
    ∧ (∀ (pre post : List (ℝ → ExpectationType → Option ℝ))
        (bad : ℝ → ExpectationType → Option ℝ),
        bad mu expected = none →
        StatisticsCombiner.likelihood (pre ++ bad :: post) mu expected true
          = StatisticsCombiner.likelihood (pre ++ [bad]) mu expected true) := by
  refine ⟨?_, ?_, ?_⟩
  · intro h
    have hall : ∀ x ∈ models.map fun m => m mu expected, x ≠ none := by
      intro x hx
      rcases List.mem_map.1 hx with ⟨m, hm, rfl⟩
      exact h m hm
    rw [StatisticsCombiner.likelihood, runMembers_all_some _ 0 hall]
    simp [List.map_map, Function.comp_def]
  · intro h
    rcases h with ⟨m, hm, hmnone⟩
    have : none ∈ models.map fun m => m mu expected :=
      List.mem_map.2 ⟨m, hm, hmnone⟩
    rw [StatisticsCombiner.likelihood, runMembers_has_none _ 0 this]
  · intro pre post bad hbad
    rw [StatisticsCombiner.likelihood, StatisticsCombiner.likelihood]
    have h1 : (pre ++ bad :: post).map (fun m => m mu expected)
        = (pre.map fun m => m mu expected) ++ none :: (post.map fun m => m mu expected) := by
      simp [hbad]
    have h2 : (pre ++ [bad]).map (fun m => m mu expected)
        = (pre.map fun m => m mu expected) ++ [none] := by
      simp [hbad]
    rw [h1, h2, runMembers_stops_at_none]

/-- Witness for `combiner_likelihood_spec`: two well-behaved members with
likelihoods 1 and 2 sum to 3; a raising member makes the joint result `nan`. -/
theorem combiner_likelihood_spec_witness :
    StatisticsCombiner.likelihood
        [fun _ _ => some 1, fun _ _ => some 2] 1 ExpectationType.observed true = some 3
    ∧ StatisticsCombiner.likelihood
        [fun _ _ => (none : Option ℝ), fun _ _ => some 2] 1 ExpectationType.observed true
        = none := by
  constructor
  · have h := (combiner_likelihood_spec
        [fun _ _ => some 1, fun _ _ => some 2] 1 ExpectationType.observed).1
      (by intro m hm; fin_cases hm <;> simp)
    rw [h]
    norm_num
  · exact (combiner_likelihood_spec
        [fun _ _ => (none : Option ℝ), fun _ _ => some 2] 1 ExpectationType.observed).2.1
      ⟨fun _ _ => none, List.mem_cons_self _ _, rfl⟩

lemma bracket_low_bail (computer : ℚ → ℚ) (loc : ℚ) (hanti : Antitone computer) :
    ∀ (fuel : ℕ) (low l : ℚ), 0 ≤ low → computer low > loc →
      bracket_low computer loc fuel low = some l → l < 1e-10 := by
  intro fuel
  induction fuel with
  | zero => intro low l _ _ h; simp [bracket_low] at h
  | succ n ih =>
    intro low l hlow hc h
    rw [bracket_low, if_pos hc] at h
    by_cases h2 : low * 0.5 < 1e-10
    · rw [if_pos h2] at h
      rw [← Option.some.inj h]
      exact h2
    · rw [if_neg h2] at h
      have hhalf : low * 0.5 ≤ low := by linarith
      exact ih (low * 0.5) l (by linarith) (lt_of_lt_of_le hc (hanti hhalf)) h

lemma bracket_low_stay (computer : ℚ → ℚ) (loc : ℚ) (fuel : ℕ) (low l : ℚ)
    (h : bracket_low computer loc fuel low = some l) (hc : ¬computer low > loc) :
    l = low := by
  cases fuel with
  | zero => simp [bracket_low] at h
  | succ n =>
    rw [bracket_low, if_neg hc] at h
    exact (Option.some.inj h).symm

lemma bracket_hig_bail (computer : ℚ → ℚ) (loc : ℚ) (hanti : Antitone computer) :
    ∀ (fuel : ℕ) (hig l : ℚ), 0 ≤ hig → computer hig < loc →
      bracket_hig computer loc fuel hig = some l → l > 1e10 := by
  intro fuel
  induction fuel with
  | zero => intro hig l _ _ h; simp [bracket_hig] at h
  | succ n ih =>
    intro hig l hhig hc h
    rw [bracket_hig, if_pos hc] at h
    by_cases h2 : hig * 2 > 1e10
    · rw [if_pos h2] at h
      rw [← Option.some.inj h]
      exact h2
    · rw [if_neg h2] at h
      have hdouble : hig ≤ hig * 2 := by linarith
      exact ih (hig * 2) l (by linarith) (lt_of_le_of_lt (hanti hdouble) hc) h

lemma bracket_hig_stay (computer : ℚ → ℚ) (loc : ℚ) (fuel : ℕ) (hig l : ℚ)
    (h : bracket_hig computer loc fuel hig = some l) (hc : ¬computer hig < loc) :
    l = hig := by
  cases fuel with
  | zero => simp [bracket_hig] at h
  | succ n =>
    rw [bracket_hig, if_neg hc] at h
    exact (Option.some.inj h).symm

/-- C5: for every decreasing `computer` that crosses `loc` within
`[1e-10, 1e10]`, the pair `(low, hig)` returned by `find_root_limits`
satisfies `computer low ≥ loc ≥ computer hig`, unless a loop's bail-out bound
(`low < 1e-10` or `hig > 1e10`) is hit.  Stated for any starting bounds with
`0 ≤ low_ini ≤ hig_ini`, which covers the defaults `1.0`/`1.0`; the fuel makes
the `while` loops total, and every terminating Python execution is a `some`
result for a large enough fuel. -/
theorem find_root_limits_bracket (computer : ℚ → ℚ) (loc low_ini hig_ini : ℚ)
    (fuel : ℕ) (low hig : ℚ) (hanti : Antitone computer)
    (_hcross : ∃ a b : ℚ, 1e-10 ≤ a ∧ a ≤ b ∧ b ≤ 1e10
      ∧ loc ≤ computer a ∧ computer b ≤ loc)
    (hlow : 0 ≤ low_ini) (hle : low_ini ≤ hig_ini)
    (hres : find_root_limits computer loc low_ini hig_ini fuel = some (low, hig)) :
    (loc ≤ computer low ∧ computer hig ≤ loc) ∨ low < 1e-10 ∨ 1e10 < hig := by
  have hpair : bracket_low computer loc fuel low_ini = some low
      ∧ bracket_hig computer loc fuel hig_ini = some hig := by
    cases e1 : bracket_low computer loc fuel low_ini with
    | none => rw [find_root_limits, e1] at hres; simp at hres
    | some a =>
      cases e2 : bracket_hig computer loc fuel hig_ini with
      | none => rw [find_root_limits, e1, e2] at hres; simp at hres
      | some b =>
        rw [find_root_limits, e1, e2] at hres
        simp only [Option.some.injEq, Prod.mk.injEq] at hres
        exact ⟨congrArg some hres.1, congrArg some hres.2⟩
  by_cases hc1 : computer low_ini > loc
  · exact Or.inr (Or.inl (bracket_low_bail computer loc hanti fuel low_ini low hlow hc1 hpair.1))
  · have hlowe := bracket_low_stay computer loc fuel low_ini low hpair.1 hc1
    by_cases hc2 : computer hig_ini < loc
    · exact Or.inr (Or.inr
        (bracket_hig_bail computer loc hanti fuel hig_ini hig (le_trans hlow hle) hc2 hpair.2))
    · have hhige := bracket_hig_stay computer loc fuel hig_ini hig hpair.2 hc2
      left
      rw [not_lt] at hc1 hc2
      have hmono : computer hig_ini ≤ computer low_ini := hanti hle
      subst hlowe hhige
      exact ⟨by linarith, by linarith⟩

/-- Witness for `find_root_limits_bracket`: the constant function `0` with
`loc = 0` crosses at `a = b = 1`, the loops exit immediately from the default
start `1.0`/`1.0`, and the bracket condition holds with equality. -/
theorem find_root_limits_bracket_witness :
    ((0 : ℚ) ≤ (fun _ : ℚ => (0 : ℚ)) 1 ∧ (fun _ : ℚ => (0 : ℚ)) 1 ≤ 0)
      ∨ (1 : ℚ) < 1e-10 ∨ (1e10 : ℚ) < 1 :=
  find_root_limits_bracket (fun _ => 0) 0 1 1 1 1 1 antitone_const
    ⟨1, 1, by norm_num, le_rfl, by norm_num, by norm_num, by norm_num⟩
    (by norm_num) le_rfl (by decide)

lemma getD_map_optmap {α β : Type} (g : α → β) (l : List (Option α)) (i : ℕ) :
    (l.map (Option.map g)).getD i none = Option.map g (l.getD i none) := by
  induction l generalizing i with
  | nil => simp [List.getD]
  | cons hd tl ih =>
    cases i with
    | zero => simp [List.getD]
    | succ n => simpa [List.getD] using ih n

/-- The signed test statistic `sqrt_qmuA` that `computer` extracts. -/
noncomputable def fpul_sqrt_qmuA (poi_test : ℝ) (maximum_likelihood : ℝ × ℝ)
    (logpdf : ℝ → ℝ) (maximum_asimov_likelihood : ℝ × ℝ) (asimov_logpdf : ℝ → ℝ)
    (test_stat : String) : ℝ :=
  (compute_teststatistics poi_test maximum_likelihood logpdf
    maximum_asimov_likelihood asimov_logpdf test_stat).2.1

/-- The signed test statistic `delta_teststat` that `computer` extracts. -/
noncomputable def fpul_delta (poi_test : ℝ) (maximum_likelihood : ℝ × ℝ)
    (logpdf : ℝ → ℝ) (maximum_asimov_likelihood : ℝ × ℝ) (asimov_logpdf : ℝ → ℝ)
    (test_stat : String) : ℝ :=
  (compute_teststatistics poi_test maximum_likelihood logpdf
    maximum_asimov_likelihood asimov_logpdf test_stat).2.2

/-- C2: for both test-statistic kinds selected from `allow_negative_signal`
(`q` when negative POI is permitted, `qtilde` otherwise), the target function
`computer` that `find_poi_upper_limit` drives to zero equals
`1 - CLs(poi) - confidence_level`, where the CLs value is the ratio (third)
component of `pvalues`/`expected_pvalues` — the root is found on CLs, not on
CLsb; hence `computer` vanishes at a POI exactly when `1 - CLs` equals the
requested confidence level there. -/
theorem fpul_target_is_cls (Φ : ℝ → ℝ) (maximum_likelihood : ℝ × ℝ)
    (logpdf : ℝ → ℝ) (maximum_asimov_likelihood : ℝ × ℝ) (asimov_logpdf : ℝ → ℝ)
    (expected : ExpectationType) (confidence_level : ℝ)
    (allow_negative_signal : Bool) (poi_test : ℝ) (pvalue_idx : ℕ) :
    (computer Φ maximum_likelihood logpdf maximum_asimov_likelihood asimov_logpdf
        expected confidence_level (fpul_test_stat allow_negative_signal)
        poi_test pvalue_idx
      = Option.map (fun c => (1 - c) - confidence_level)
          ((if expected = ExpectationType.observed
            then [cls_observed Φ
              (fpul_sqrt_qmuA poi_test maximum_likelihood logpdf
                maximum_asimov_likelihood asimov_logpdf
                (fpul_test_stat allow_negative_signal))
              (fpul_delta poi_test maximum_likelihood logpdf
                maximum_asimov_likelihood asimov_logpdf
                (fpul_test_stat allow_negative_signal))]
            else cls_expected_list Φ
              (fpul_sqrt_qmuA poi_test maximum_likelihood logpdf
                maximum_asimov_likelihood asimov_logpdf
                (fpul_test_stat allow_negative_signal))).getD pvalue_idx none))
    ∧ (computer Φ maximum_likelihood logpdf maximum_asimov_likelihood asimov_logpdf
        expected confidence_level (fpul_test_stat allow_negative_signal)
        poi_test pvalue_idx = some 0 ↔
      ∃ c : ℝ, ((if expected = ExpectationType.observed
            then [cls_observed Φ
              (fpul_sqrt_qmuA poi_test maximum_likelihood logpdf
                maximum_asimov_likelihood asimov_logpdf
                (fpul_test_stat allow_negative_signal))
              (fpul_delta poi_test maximum_likelihood logpdf
                maximum_asimov_likelihood asimov_logpdf
                (fpul_test_stat allow_negative_signal))]
            else cls_expected_list Φ
              (fpul_sqrt_qmuA poi_test maximum_likelihood logpdf
                maximum_asimov_likelihood asimov_logpdf
                (fpul_test_stat allow_negative_signal))).getD pvalue_idx none)
          = some c ∧ 1 - c = confidence_level) := by
  have hmain : computer Φ maximum_likelihood logpdf maximum_asimov_likelihood
      asimov_logpdf expected confidence_level (fpul_test_stat allow_negative_signal)
      poi_test pvalue_idx
      = Option.map (fun c => (1 - c) - confidence_level)
        ((if expected = ExpectationType.observed
          then [cls_observed Φ
            (fpul_sqrt_qmuA poi_test maximum_likelihood logpdf
              maximum_asimov_likelihood asimov_logpdf
              (fpul_test_stat allow_negative_signal))
            (fpul_delta poi_test maximum_likelihood logpdf
              maximum_asimov_likelihood asimov_logpdf
              (fpul_test_stat allow_negative_signal))]
          else cls_expected_list Φ
            (fpul_sqrt_qmuA poi_test maximum_likelihood logpdf
              maximum_asimov_likelihood asimov_logpdf
              (fpul_test_stat allow_negative_signal))).getD pvalue_idx none) := by
    have hq0 : ¬fpul_test_stat allow_negative_signal = "q0" := by
      cases allow_negative_signal <;> simp [fpul_test_stat]
    simp only [computer, spey_compute_confidence_level, if_neg hq0,
      fpul_sqrt_qmuA, fpul_delta, cls_observed, cls_expected_list]
    by_cases hobs : expected = ExpectationType.observed
    · simp only [if_pos hobs, getD_map_optmap, Option.map_map]
      simp [Function.comp_def]
    · simp only [if_neg hobs, getD_map_optmap, Option.map_map]
      simp [Function.comp_def]
  refine ⟨hmain, ?_⟩
  rw [hmain]
  cases hcl : (if expected = ExpectationType.observed
      then [cls_observed Φ
        (fpul_sqrt_qmuA poi_test maximum_likelihood logpdf
          maximum_asimov_likelihood asimov_logpdf
          (fpul_test_stat allow_negative_signal))
        (fpul_delta poi_test maximum_likelihood logpdf
          maximum_asimov_likelihood asimov_logpdf
          (fpul_test_stat allow_negative_signal))]
      else cls_expected_list Φ
        (fpul_sqrt_qmuA poi_test maximum_likelihood logpdf
          maximum_asimov_likelihood asimov_logpdf
          (fpul_test_stat allow_negative_signal))).getD pvalue_idx none with
  | none => simp
  | some c =>
    simp only [Option.map_some', Option.some.injEq]
    constructor
    · intro h
      exact ⟨c, rfl, by linarith⟩
    · rintro ⟨c2, hc2, hc3⟩
      rw [hc2]
      linarith

end Spey
